import Mathlib

/-!
Verification of the session-memory and query-processing layer of the legal
assistant agent (`src/agents/legalAgent.ts`), shallowly embedded in Lean.

JS arrays become `List`, JS strings become `String`, the per-session message
store becomes an explicit state value threaded through the operations, and the
model backend's streamed response becomes an explicit input: a finite list of
yielded chunks optionally followed by a thrown error.  Log output is modelled
as an explicit list of entries returned alongside the result.
-/

namespace MyLawer

/-- Message roles, as reported by LangChain's `_getType()` tag. `system`
corresponds to the tag the code's `trimMessages` filters on; `human` and `ai`
correspond to `HumanMessage` and `AIMessage`; `other` covers the remaining
message kinds (for example tool messages) that may appear in a stream. -/
inductive Role where
  | system
  | human
  | ai
  | other
  deriving DecidableEq, Repr

/-- One conversational message (LangChain `BaseMessage`). `content` is `some s`
when the JS `content` field holds the string `s`, and `none` when it holds any
non-string value (for example a structured content-part array); the streaming
loops in `legalAgent.ts` test `typeof message.content === 'string'` before
using the content. -/
structure BaseMessage where
  role : Role
  content : Option String
  deriving DecidableEq, Repr

/-- The `new HumanMessage({ content: query })` constructed in `processQuery`
(line 171) and `getStream` (line 238). -/
def newHumanMessage (query : String) : BaseMessage :=
  { role := Role.human, content := some query }

/-- JS `s.substring(0, len)` for a nonnegative `len`: the first
`min len (length s)` characters of `s`.  Used by the info logs in
`processQuery` / `getStream` (`query.substring(0, 100) + '...'`). -/
def jsSubstring (s : String) (len : Nat) : String :=
  String.mk (s.toList.take len)

/-- JS `s.substr(start, len)` for nonnegative arguments: up to `len`
characters of `s` starting at index `start`.  Used by
`generateDefaultSessionId` (`Math.random().toString(36).substr(2, 9)`). -/
def jsSubstr (s : String) (start len : Nat) : String :=
  String.mk ((s.toList.drop start).take len)

/-- JS `arr.slice(-n)`: for `n = 0` this is `slice(0)`, the whole array; for
`n > 0` it is the suffix starting at index `max (length - n) 0`, that is the
last `n` elements (or the whole array when `n ≥ length`).  Used by
`trimMessages` (`messages.slice(-this.maxContextMessages)`). -/
def jsSliceLast (n : Nat) (xs : List BaseMessage) : List BaseMessage :=
  if n = 0 then xs else xs.drop (xs.length - n)

/-- `LegalAgent.maxContextMessages` (line 19): the fixed context bound, 10. -/
def maxContextMessages : Nat := 10

/-- `LegalAgent.trimMessages` (lines 290-300), with the instance field
`this.maxContextMessages` exposed as the parameter `maxCount` so that the
spec's `trim(turns, maxCount)` can be stated: if the list is within the bound
it is returned unchanged; otherwise the messages whose `_getType()` is
`system` (in original relative order) are concatenated with
`messages.slice(-maxCount)`, the last `maxCount` messages of the full original
list. -/
def trimMessagesWith (maxCount : Nat) (messages : List BaseMessage) : List BaseMessage :=
  if messages.length ≤ maxCount then
    messages
  else
    (messages.filter (fun m => m.role == Role.system)) ++ jsSliceLast maxCount messages

/-- `LegalAgent.trimMessages` as actually called: `maxCount` is the fixed
field `maxContextMessages = 10`. -/
def trimMessages (messages : List BaseMessage) : List BaseMessage :=
  trimMessagesWith maxContextMessages messages

/-- Modelled from the spec: the repository's `MemorySaverManager`
(`src/memory/memorySaverManager.ts`) is not among the sources; per spec
§4.1/§4.4 it holds, per session identifier, an ordered sequence of turns,
returning the empty sequence for a never-seen identifier (lazy creation). -/
def Memory : Type := String → List BaseMessage

/-- Modelled from the spec: the store of a fresh process, with no session
holding any turns. -/
def Memory.empty : Memory := fun _ => []

/-- Modelled from the spec: `getMessages(sessionId)` returns the session's
turns in insertion order (empty if the identifier was never seen). -/
def getMessages (mem : Memory) (sessionId : String) : List BaseMessage :=
  mem sessionId

/-- Modelled from the spec: `addMessage(sessionId, turn)` appends `turn` to
the end of that session's sequence, leaving every other session unchanged. -/
def addMessage (mem : Memory) (sessionId : String) (m : BaseMessage) : Memory :=
  fun s => if s = sessionId then mem s ++ [m] else mem s

/-- One chunk yielded by `agent.stream(..., { streamMode: "messages" })`.
`some msg` models a nonempty array chunk `[message, metadata]` whose
`message` is non-null (the only shape the loops destructure and use);
`none` models every other shape (non-array, empty array, null message),
which the loops skip. -/
abbrev StreamChunk : Type := Option BaseMessage

/-- The model backend's streamed response: the chunks it yields in order,
then either normal exhaustion (`error = none`) or a thrown error with the
given message (`error = some e`) after the listed chunks. -/
structure ModelStream where
  chunks : List StreamChunk
  error : Option String
  deriving DecidableEq, Repr

/-- One step of the accumulation loop shared by `processQuery` (lines 185-193)
and `monitorStream` (lines 317-327): on a chunk whose message content is a
string, append the content to `fullResponse` and remember the message as
`aiMessage`; otherwise leave both unchanged. -/
def streamFold (acc : String × Option BaseMessage) (chunk : StreamChunk) :
    String × Option BaseMessage :=
  match chunk with
  | some msg =>
    match msg.content with
    | some s => (acc.1 ++ s, some msg)
    | none => acc
  | none => acc

/-- The loop's final state over a whole chunk list, starting from
`fullResponse = ''` and `aiMessage = null`: the accumulated text and the last
message whose content was a string (if any). -/
def collectStream (chunks : List StreamChunk) : String × Option BaseMessage :=
  List.foldl streamFold ("", none) chunks

/-- True exactly when the chunk would be used by the accumulation loop: it is
a well-shaped chunk whose message content is a string. -/
def chunkHasStringContent : StreamChunk → Bool
  | some m => m.content.isSome
  | none => false

/-- One `Logger.info` / `Logger.error` call, projected onto the fields the
code passes: the level, the fixed text, and the `query`, `error`, `sessionId`,
`responseLength`, `messageCount` data fields when present. -/
structure LogEntry where
  level : String
  text : String
  query : Option String := none
  error : Option String := none
  sessionId : Option String := none
  responseLength : Option Nat := none
  messageCount : Option Nat := none
  deriving DecidableEq, Repr

/-- The message list assembled for one request (lines 164-172 of
`processQuery`, identically lines 231-239 of `getStream`): the session's
stored history (read via `getMessages`, passed to `trimMessages` as the copy
`[...sessionMessages]`), trimmed, with the new user message appended. -/
def requestMessages (mem : Memory) (sessionId query : String) : List BaseMessage :=
  trimMessages (getMessages mem sessionId) ++ [newHumanMessage query]

/-- Result of one `processQuery` call: the returned text or thrown error
message, the message store after the call, and the log entries emitted. -/
structure QueryResult where
  result : Except String String
  memory : Memory
  logs : List LogEntry

/-- `LegalAgent.processQuery` (lines 150-212).  `agentStream` is the external
model backend: given the assembled message list it yields a stream
(`agent.stream`, lines 175-179; an invocation failure is a stream with no
chunks and an error).  The loop buffers the chunks; on normal exhaustion the
user message and then, if any string-content chunk arrived, the last such
chunk's message (`aiMessage`) are appended to the store and the accumulated
text is returned; on any error nothing is committed, the failure is logged
with the full query, and a new error wrapping the original message is
thrown. -/
def processQuery (agentStream : List BaseMessage → ModelStream) (mem : Memory)
    (effectiveSessionId query : String) : QueryResult :=
  let startLog : LogEntry :=
    { level := "info", text := "Processing legal query with session",
      query := some (jsSubstring query 100 ++ "..."),
      sessionId := some effectiveSessionId }
  let newUserMessage := newHumanMessage query
  let allMessages := requestMessages mem effectiveSessionId query
  let stream := agentStream allMessages
  let fullResponse := (collectStream stream.chunks).1
  let aiMessage := (collectStream stream.chunks).2
  match stream.error with
  | some e =>
    { result := Except.error ("クエリ処理に失敗しました: " ++ e),
      memory := mem,
      logs := [startLog,
        { level := "error", text := "クエリ処理中にエラーが発生しました",
          error := some e, query := some query }] }
  | none =>
    let mem1 := addMessage mem effectiveSessionId newUserMessage
    let mem2 :=
      match aiMessage with
      | some m => addMessage mem1 effectiveSessionId m
      | none => mem1
    { result := Except.ok fullResponse,
      memory := mem2,
      logs := [startLog,
        { level := "info", text := "クエリが正常に処理されました",
          sessionId := some effectiveSessionId,
          responseLength := some fullResponse.length,
          messageCount := some (getMessages mem2 effectiveSessionId).length }] }

/-- Result of one run of the async generator `monitorStream` consumed to
exhaustion: the chunks relayed to the consumer, the store afterwards, the
error propagated to the consumer (if any), and the log entries emitted. -/
structure StreamRunResult where
  yielded : List StreamChunk
  memory : Memory
  error : Option String
  logs : List LogEntry

/-- `LegalAgent.monitorStream` (lines 305-346), consumed to exhaustion: the
user message is saved before the loop (line 314); each chunk is yielded to the
consumer and then accumulated; on exhaustion the last string-content chunk's
message (`aiMessage`), if any, is saved; on a stream error the error is logged
with the session id and rethrown unchanged, and `aiMessage` is not saved. -/
def monitorStream (stream : ModelStream) (sessionId : String)
    (userMessage : BaseMessage) (mem : Memory) : StreamRunResult :=
  let mem1 := addMessage mem sessionId userMessage
  let fullResponse := (collectStream stream.chunks).1
  let aiMessage := (collectStream stream.chunks).2
  match stream.error with
  | some e =>
    { yielded := stream.chunks, memory := mem1, error := some e,
      logs := [{ level := "error", text := "Stream monitoring error",
                 error := some e, sessionId := some sessionId }] }
  | none =>
    let mem2 :=
      match aiMessage with
      | some m => addMessage mem1 sessionId m
      | none => mem1
    { yielded := stream.chunks, memory := mem2, error := none,
      logs := [{ level := "info", text := "Stream completed and messages saved",
                 sessionId := some sessionId,
                 responseLength := some fullResponse.length }] }

/-- The store after a consumer of `monitorStream` performs `pulls` pulls and
then abandons the stream before exhaustion (`pulls ≤ stream.chunks.length`;
exhaustion would be `length + 1` pulls).  JS async-generator bodies run lazily
between `yield`s: with zero pulls the body never starts, so not even the user
message is saved; the first pull runs the body up to the first `yield`, which
includes `addMessage(sessionId, userMessage)` (line 314); the code after the
loop (`addMessage(sessionId, aiMessage)`, lines 330-332) only runs on the pull
past the last chunk, so an abandoning consumer never commits the assistant
message, and abandonment injects a return (not an exception) at the suspended
`yield`, so the `catch` does not run either. -/
def monitorStreamAbandoned (_stream : ModelStream) (sessionId : String)
    (userMessage : BaseMessage) (mem : Memory) (pulls : Nat) : Memory :=
  if pulls = 0 then mem else addMessage mem sessionId userMessage

/-- Result of one `getStream` call: on success, the backend stream together
with the session id and user message that the returned `monitorStream`
generator will use when consumed (no store mutation happens during `getStream`
itself, since the generator body is deferred); on failure, the wrapped error
message.  Plus the log entries emitted. -/
structure GetStreamResult where
  result : Except String (ModelStream × String × BaseMessage)
  logs : List LogEntry

/-- `LegalAgent.getStream` (lines 217-257).  `agentStream` is the external
model backend; `Except.error e` models `await this.agent.stream(...)`
rejecting with message `e`.  On success the call returns the monitored stream
(deferred; modelled by returning the ingredients `monitorStream` is applied
to) having touched no session state; on failure the error is logged with the
full query and rethrown wrapped. -/
def getStream (agentStream : List BaseMessage → Except String ModelStream)
    (mem : Memory) (effectiveSessionId query : String) : GetStreamResult :=
  let startLog : LogEntry :=
    { level := "info", text := "Processing legal query stream with session",
      query := some (jsSubstring query 100 ++ "..."),
      sessionId := some effectiveSessionId }
  let newUserMessage := newHumanMessage query
  let allMessages := requestMessages mem effectiveSessionId query
  match agentStream allMessages with
  | Except.error e =>
    { result := Except.error ("ストリーム処理に失敗しました: " ++ e),
      logs := [startLog,
        { level := "error", text := "Error processing stream query",
          error := some e, query := some query }] }
  | Except.ok stream =>
    { result := Except.ok (stream, effectiveSessionId, newUserMessage),
      logs := [startLog] }

/-- Resolution of the session id at the top of `processQuery` / `getStream`
(`sessionId || this.generateDefaultSessionId()`): the JS `||` falls through to
the generated id both when the argument is absent and when it is the (falsy)
empty string. -/
def resolveSessionId (sessionId : Option String) (generated : String) : String :=
  match sessionId with
  | some s => if s = "" then generated else s
  | none => generated

/-- The characters a base-36 rendering uses: the digits and the lowercase
letters. -/
def base36Char (c : Char) : Bool :=
  ("0123456789abcdefghijklmnopqrstuvwxyz".toList).contains c

/-- Modelled from JS runtime semantics: the possible outputs of
`Math.random().toString(36)`. `Math.random()` returns a double in `[0, 1)`;
`toString(36)` renders `0` as `"0"` and every other such value as `"0."`
followed by a nonempty sequence of base-36 digit characters.  The length of
that digit sequence varies with the value (for example `(0.5).toString(36)`
is `"0.i"`). -/
def isRandomToString36 (s : String) : Bool :=
  s == "0" ||
    (s.toList.take 2 == ['0', '.'] &&
      !(s.toList.drop 2).isEmpty &&
      (s.toList.drop 2).all base36Char)

/-- `LegalAgent.generateDefaultSessionId` (lines 283-285): the template
`session_<Date.now()>_<Math.random().toString(36).substr(2, 9)>`, with the
wall-clock milliseconds and the random value's base-36 string as explicit
inputs from the environment. -/
def generateDefaultSessionId (nowMillis : Nat) (randomStr : String) : String :=
  "session_" ++ toString nowMillis ++ "_" ++ jsSubstr randomStr 2 9

/-! Concrete data used by witnesses and counterexamples. -/

/-- The system turn of the spec's §8.3 trim example. -/
def exSystem : BaseMessage := { role := Role.system, content := some "sys" }

/-- User turn `u1` of the spec's trim example. -/
def exU1 : BaseMessage := { role := Role.human, content := some "u1" }

/-- Assistant turn `a1` of the spec's trim example. -/
def exA1 : BaseMessage := { role := Role.ai, content := some "a1" }

/-- User turn `u2` of the spec's trim example. -/
def exU2 : BaseMessage := { role := Role.human, content := some "u2" }

/-- Assistant turn `a2` of the spec's trim example. -/
def exA2 : BaseMessage := { role := Role.ai, content := some "a2" }

/-- User turn `u3` of the spec's trim example. -/
def exU3 : BaseMessage := { role := Role.human, content := some "u3" }

/-- The spec's §8.3 trim example input: `[system, u1, a1, u2, a2, u3]`. -/
def exampleTurns6 : List BaseMessage := [exSystem, exU1, exA1, exU2, exA2, exU3]

/-- A system turn sitting late in a long history, hence inside the trailing
window kept by `trimMessages`. -/
def exLateSystem : BaseMessage := { role := Role.system, content := some "late" }

/-- An 11-turn history (one more than `maxContextMessages`) whose final turn
is a system turn, so that turn is kept both by the system filter and by the
trailing window. -/
def exampleTurns11 : List BaseMessage :=
  [exSystem, exU1, exA1, exU2, exA2, exU3,
   { role := Role.ai, content := some "a3" },
   { role := Role.human, content := some "u4" },
   { role := Role.ai, content := some "a4" },
   { role := Role.human, content := some "u5" },
   exLateSystem]

/-- A streamed assistant chunk with content `"A"`. -/
def exChunkA : BaseMessage := { role := Role.ai, content := some "A" }

/-- A streamed assistant chunk with content `"B"`. -/
def exChunkB : BaseMessage := { role := Role.ai, content := some "B" }

/-- A backend stream yielding the two chunks `"A"`, `"B"` and then ending
normally. -/
def twoChunkStream : ModelStream :=
  { chunks := [some exChunkA, some exChunkB], error := none }

/-- A backend stream that yields one chunk and then throws `"boom"`. -/
def errStream : ModelStream :=
  { chunks := [some exChunkA], error := some "boom" }

/-- A backend stream that completes normally but yields no chunk whose message
content is a string: one malformed chunk and one message whose content is not
a string. -/
def noContentStream : ModelStream :=
  { chunks := [none, some { role := Role.ai, content := none }], error := none }

/-- A 300-character query, comfortably longer than the 100-character
truncation threshold. -/
def longQuery : String := String.mk (List.replicate 300 'a')

/-! Helper lemmas shared by the claim theorems. -/

/-- Reading the session just written to sees the appended turn at the end. -/
theorem getMessages_addMessage_self (mem : Memory) (sid : String) (m : BaseMessage) :
    getMessages (addMessage mem sid m) sid = getMessages mem sid ++ [m] := by
  simp [getMessages, addMessage]

/-- Reading any other session sees no change. -/
theorem getMessages_addMessage_ne (mem : Memory) (sid : String) (m : BaseMessage)
    (s : String) (h : s ≠ sid) :
    getMessages (addMessage mem sid m) s = getMessages mem s := by
  simp [getMessages, addMessage, h]

/-- `addMessage` only ever extends a session's stored sequence. -/
theorem addMessage_extends (mem : Memory) (sid : String) (m : BaseMessage)
    (s : String) :
    ∃ t, getMessages (addMessage mem sid m) s = getMessages mem s ++ t := by
  by_cases h : s = sid
  · exact ⟨[m], by simp [getMessages, addMessage, h]⟩
  · exact ⟨[], by simp [getMessages, addMessage, h]⟩

/-- A chunk the loop skips leaves the accumulator untouched. -/
theorem streamFold_skip (acc : String × Option BaseMessage) (c : StreamChunk)
    (hc : chunkHasStringContent c = false) : streamFold acc c = acc := by
  match c with
  | none => rfl
  | some m =>
    match hm : m.content with
    | some s => simp [chunkHasStringContent, hm] at hc
    | none => simp [streamFold, hm]

/-- If no chunk carries string content, the whole loop leaves the accumulator
at its initial state. -/
theorem foldl_streamFold_id (chunks : List StreamChunk)
    (h : ∀ c ∈ chunks, chunkHasStringContent c = false)
    (acc : String × Option BaseMessage) :
    List.foldl streamFold acc chunks = acc := by
  induction chunks generalizing acc with
  | nil => rfl
  | cons c cs ih =>
    rw [List.foldl_cons, streamFold_skip acc c (h c (List.mem_cons_self c cs))]
    exact ih (fun x hx => h x (List.mem_cons_of_mem c hx)) acc

/-- If no chunk carries string content, `fullResponse` ends empty and
`aiMessage` ends null. -/
theorem collectStream_no_content (chunks : List StreamChunk)
    (h : ∀ c ∈ chunks, chunkHasStringContent c = false) :
    collectStream chunks = ("", none) :=
  foldl_streamFold_id chunks h ("", none)

/-! The claims. -/

/-- Claim C3: for every list of turns whose length is at most the configured
`maxCount` (the fixed `maxContextMessages = 10`), `trimMessages` returns that
list unchanged, with order preserved. -/
theorem trim_identity (msgs : List BaseMessage)
    (h : msgs.length ≤ maxContextMessages) : trimMessages msgs = msgs := by
  simp [trimMessages, trimMessagesWith, h]

/-- Witness for claim C3 at a concrete one-element history. -/
theorem trim_identity_witness :
    [exU1].length ≤ maxContextMessages ∧ trimMessages [exU1] = [exU1] :=
  ⟨by decide, trim_identity [exU1] (by decide)⟩

/-- Claim C1, counterexample to the claim as stated: on the spec's own example
`[system, u1, a1, u2, a2, u3]` with `maxCount = 4`, the output is indeed
`[system, a1, u2, a2, u3]` of length 5, but the system turn appears exactly
once in it, not twice — the system turn is not among the last 4 turns, so the
claimed duplication does not occur on this input. -/
theorem trim_example_system_once :
    trimMessagesWith 4 exampleTurns6 = [exSystem, exA1, exU2, exA2, exU3] ∧
    (trimMessagesWith 4 exampleTurns6).length = 5 ∧
    (trimMessagesWith 4 exampleTurns6).count exSystem = 1 ∧
    ¬ (trimMessagesWith 4 exampleTurns6).count exSystem = 2 := by
  refine ⟨by decide, by decide, by decide, by decide⟩

/-- Claim C1 as amended: for every list of turns whose length exceeds the
fixed `maxCount` of 10, trim returns the system-role turns (in original
relative order) concatenated with the last `maxCount` turns of the full
original sequence (in original order), without deduplication, so a system turn
that lies within the last `maxCount` turns appears (at least) twice; on the
spec's example `[system, u1, a1, u2, a2, u3]` with `maxCount = 4` the output
is `[system, a1, u2, a2, u3]` of length 5, with the system turn appearing
once, since it is not among the last 4 turns. -/
theorem trim_overflow_spec :
    (∀ msgs : List BaseMessage, maxContextMessages < msgs.length →
      trimMessages msgs
        = msgs.filter (fun m => m.role == Role.system)
            ++ msgs.drop (msgs.length - maxContextMessages)) ∧
    (∀ msgs : List BaseMessage, ∀ m : BaseMessage,
      maxContextMessages < msgs.length →
      m ∈ msgs.drop (msgs.length - maxContextMessages) →
      m.role = Role.system →
      2 ≤ (trimMessages msgs).count m) ∧
    (trimMessagesWith 4 exampleTurns6 = [exSystem, exA1, exU2, exA2, exU3] ∧
      (trimMessagesWith 4 exampleTurns6).length = 5 ∧
      (trimMessagesWith 4 exampleTurns6).count exSystem = 1) := by
  have hmain : ∀ msgs : List BaseMessage, maxContextMessages < msgs.length →
      trimMessages msgs
        = msgs.filter (fun m => m.role == Role.system)
            ++ msgs.drop (msgs.length - maxContextMessages) := by
    intro msgs h
    have h' : ¬ msgs.length ≤ maxContextMessages := Nat.not_le.mpr h
    unfold trimMessages trimMessagesWith jsSliceLast
    rw [if_neg h', if_neg (by decide : ¬ maxContextMessages = 0)]
  refine ⟨hmain, ?_, by decide, by decide, by decide⟩
  intro msgs m hlen hmem hrole
  rw [hmain msgs hlen, List.count_append]
  have hm1 : 0 < (msgs.filter (fun m => m.role == Role.system)).count m := by
    have : m ∈ msgs.filter (fun m => m.role == Role.system) :=
      List.mem_filter.mpr ⟨List.drop_subset _ msgs hmem, by simp [hrole]⟩
    exact List.count_pos_iff.mpr this
  have hm2 : 0 < (msgs.drop (msgs.length - maxContextMessages)).count m :=
    List.count_pos_iff.mpr hmem
  omega

/-- Witness for claim C1's amended theorem on the 11-turn history whose last
turn is a system turn: the trimmed list has the promised shape and that system
turn appears twice. -/
theorem trim_overflow_spec_witness :
    trimMessages exampleTurns11
      = exampleTurns11.filter (fun m => m.role == Role.system)
          ++ exampleTurns11.drop (exampleTurns11.length - maxContextMessages) ∧
    2 ≤ (trimMessages exampleTurns11).count exLateSystem :=
  ⟨trim_overflow_spec.1 exampleTurns11 (by decide),
   trim_overflow_spec.2.1 exampleTurns11 exLateSystem (by decide) (by decide) rfl⟩

/-- Claim C2: on an error during model invocation or streaming, the partially
accumulated assistant turn is never committed; in the non-streaming path
(`processQuery`) the store is left entirely unchanged (the user turn is not
committed either), while in the streaming path (`monitorStream`, the generator
`getStream` returns) the user turn is saved at stream start, before the loop,
and therefore remains the only commit when the stream subsequently fails (the
error reaching the consumer unchanged). -/
theorem error_discards_turns :
    (∀ (agentStream : List BaseMessage → ModelStream) (mem : Memory)
        (sid query e : String),
      (agentStream (requestMessages mem sid query)).error = some e →
      (processQuery agentStream mem sid query).memory = mem) ∧
    (∀ (st : ModelStream) (sid : String) (u : BaseMessage) (mem : Memory)
        (e : String),
      st.error = some e →
      (monitorStream st sid u mem).memory = addMessage mem sid u ∧
      (monitorStream st sid u mem).error = some e) := by
  constructor
  · intro agentStream mem sid query e he
    simp only [processQuery, he]
  · intro st sid u mem e he
    constructor <;> simp only [monitorStream, he]

/-- Witness for claim C2 on a concrete stream that yields one chunk and then
throws: the buffered path leaves the empty store empty, and the streaming path
leaves exactly the user turn committed. -/
theorem error_discards_turns_witness :
    (processQuery (fun _ => errStream) Memory.empty "s" "hello").memory
      = Memory.empty ∧
    (monitorStream errStream "s" (newHumanMessage "hello") Memory.empty).memory
      = addMessage Memory.empty "s" (newHumanMessage "hello") :=
  ⟨error_discards_turns.1 (fun _ => errStream) Memory.empty "s" "hello" "boom" rfl,
   (error_discards_turns.2 errStream "s" (newHumanMessage "hello")
      Memory.empty "boom" rfl).1⟩

/-- Claim C4, counterexample to the claim as stated: with a backend stream
yielding the two content chunks `"A"` then `"B"`, `processQuery` returns the
accumulated text `"AB"` to the caller but commits, after the user turn, the
message of the *last* chunk — whose content is `"B"` — and not an assistant
turn carrying the accumulated `"AB"`. -/
theorem commit_last_chunk_not_accumulated :
    (processQuery (fun _ => twoChunkStream) Memory.empty "s" "q").result
      = Except.ok "AB" ∧
    getMessages (processQuery (fun _ => twoChunkStream) Memory.empty "s" "q").memory "s"
      = [newHumanMessage "q", exChunkB] ∧
    ¬ getMessages (processQuery (fun _ => twoChunkStream) Memory.empty "s" "q").memory "s"
      = [newHumanMessage "q", { role := Role.ai, content := some "AB" }] := by
  refine ⟨rfl, by decide, by decide⟩

/-- Claim C4 as amended: on successful completion of a request's stream that
carried at least one string-content chunk, the new user turn and then the
assistant message are appended to the session's message store in that order
(the user turn strictly before the assistant turn), for both the buffered
(`processQuery`) and streaming (`monitorStream`) paths — where the committed
assistant message is the message of the last chunk whose content was a string,
carrying only that chunk's content, not the accumulated response text. -/
theorem commit_user_then_last_ai :
    (∀ (agentStream : List BaseMessage → ModelStream) (mem : Memory)
        (sid query : String) (m : BaseMessage),
      (agentStream (requestMessages mem sid query)).error = none →
      (collectStream (agentStream (requestMessages mem sid query)).chunks).2 = some m →
      getMessages (processQuery agentStream mem sid query).memory sid
        = getMessages mem sid ++ [newHumanMessage query, m]) ∧
    (∀ (st : ModelStream) (sid : String) (u : BaseMessage) (mem : Memory)
        (m : BaseMessage),
      st.error = none →
      (collectStream st.chunks).2 = some m →
      getMessages (monitorStream st sid u mem).memory sid
        = getMessages mem sid ++ [u, m]) := by
  constructor
  · intro agentStream mem sid query m he hm
    simp only [processQuery, he, hm]
    rw [getMessages_addMessage_self, getMessages_addMessage_self,
      List.append_assoc]
    rfl
  · intro st sid u mem m he hm
    simp only [monitorStream, he, hm]
    rw [getMessages_addMessage_self, getMessages_addMessage_self,
      List.append_assoc]
    rfl

/-- Witness for claim C4's amended theorem on the two-chunk stream: both paths
commit the user turn and then the last chunk's message, in that order. -/
theorem commit_user_then_last_ai_witness :
    getMessages (processQuery (fun _ => twoChunkStream) Memory.empty "w" "q2").memory "w"
      = getMessages Memory.empty "w" ++ [newHumanMessage "q2", exChunkB] ∧
    getMessages (monitorStream twoChunkStream "w" (newHumanMessage "q2")
        Memory.empty).memory "w"
      = getMessages Memory.empty "w" ++ [newHumanMessage "q2", exChunkB] :=
  ⟨commit_user_then_last_ai.1 (fun _ => twoChunkStream) Memory.empty "w" "q2"
      exChunkB rfl rfl,
   commit_user_then_last_ai.2 twoChunkStream "w" (newHumanMessage "q2")
      Memory.empty exChunkB rfl rfl⟩

/-- Claim C5, counterexample to the claim as stated: `"0.i"` is a possible
output of `Math.random().toString(36)` (it is `(0.5).toString(36)`), and on it
the generated identifier is `session_<millis>_i` — the suffix after the second
underscore is the single character `"i"`, not exactly 9 alphanumeric
characters, because `substr(2, 9)` takes at most 9 characters and the base-36
rendering has fewer than 11. -/
theorem session_id_short_suffix :
    isRandomToString36 "0.i" = true ∧
    generateDefaultSessionId 1730000000000 "0.i" = "session_1730000000000_i" ∧
    (jsSubstr "0.i" 2 9).length = 1 ∧
    ¬ (jsSubstr "0.i" 2 9).length = 9 := by
  refine ⟨by decide, by decide, by decide, by decide⟩

/-- Claim C5 as amended: the auto-generated identifier has the format
`session_<wall-clock-millis>_<suffix>` where the suffix is `substr(2, 9)` of
the random value's base-36 string: at most 9 characters, every one of them a
base-36 alphanumeric character, and exactly `min 9 (length - 2)` characters —
so exactly 9 only when the base-36 rendering has at least 11 characters, which
is the typical but not the universal case. -/
theorem session_id_suffix_spec :
    ∀ (nowMillis : Nat) (randomStr : String),
      isRandomToString36 randomStr = true →
      generateDefaultSessionId nowMillis randomStr
        = "session_" ++ toString nowMillis ++ "_" ++ jsSubstr randomStr 2 9 ∧
      (jsSubstr randomStr 2 9).length = min 9 (randomStr.length - 2) ∧
      (jsSubstr randomStr 2 9).toList.all base36Char = true := by
  intro nowMillis s hs
  refine ⟨rfl, ?_, ?_⟩
  · show ((s.toList.drop 2).take 9).length = min 9 (s.toList.length - 2)
    rw [List.length_take, List.length_drop]
  · show ((s.toList.drop 2).take 9).all base36Char = true
    simp only [isRandomToString36, Bool.or_eq_true, Bool.and_eq_true,
      beq_iff_eq] at hs
    rcases hs with hs | ⟨⟨_, _⟩, hall⟩
    · subst hs
      decide
    · rw [List.all_eq_true] at hall ⊢
      exact fun c hc => hall c (List.take_subset 9 _ hc)

/-- Witness for claim C5's amended theorem at a random string with an 11-digit
fractional part, the case in which the suffix reaches the full 9 characters. -/
theorem session_id_suffix_spec_witness :
    generateDefaultSessionId 1730000000000 "0.12345678901"
      = "session_" ++ toString 1730000000000 ++ "_" ++ jsSubstr "0.12345678901" 2 9 ∧
    (jsSubstr "0.12345678901" 2 9).length = min 9 ("0.12345678901".length - 2) ∧
    (jsSubstr "0.12345678901" 2 9).toList.all base36Char = true :=
  session_id_suffix_spec 1730000000000 "0.12345678901" (by decide)

/-- Claim C6: every failure caught during query processing in `processQuery`
or in the `getStream` call is surfaced to the caller as a thrown error, not
swallowed, and that error is a new error whose message embeds the original
cause's message (after the fixed Japanese wrapping text). -/
theorem errors_rethrown_wrapped :
    (∀ (agentStream : List BaseMessage → ModelStream) (mem : Memory)
        (sid query e : String),
      (agentStream (requestMessages mem sid query)).error = some e →
      (processQuery agentStream mem sid query).result
        = Except.error ("クエリ処理に失敗しました: " ++ e)) ∧
    (∀ (agentStreamE : List BaseMessage → Except String ModelStream)
        (mem : Memory) (sid query e : String),
      agentStreamE (requestMessages mem sid query) = Except.error e →
      (getStream agentStreamE mem sid query).result
        = Except.error ("ストリーム処理に失敗しました: " ++ e)) := by
  constructor
  · intro agentStream mem sid query e he
    simp only [processQuery, he]
  · intro agentStreamE mem sid query e he
    simp only [getStream, he]

/-- Witness for claim C6: a backend failure with message `"boom"` surfaces
through `processQuery` and through `getStream` as the respective wrapped
errors. -/
theorem errors_rethrown_wrapped_witness :
    (processQuery (fun _ => errStream) Memory.empty "s" "hi").result
      = Except.error ("クエリ処理に失敗しました: " ++ "boom") ∧
    (getStream (fun _ => Except.error "boom") Memory.empty "s" "hi").result
      = Except.error ("ストリーム処理に失敗しました: " ++ "boom") :=
  ⟨errors_rethrown_wrapped.1 (fun _ => errStream) Memory.empty "s" "hi" "boom" rfl,
   errors_rethrown_wrapped.2 (fun _ => Except.error "boom") Memory.empty "s" "hi"
      "boom" rfl⟩

/-- Claim C7: a consumer of the monitored stream returned by `getStream` that
stops iterating after `pulls` pulls, before the stream is exhausted, leaves
the partially accumulated assistant turn uncommitted: the session's store
gains at most the user turn (saved on the first pull), no other session
changes, and the number of assistant-role turns stored for the session is
unchanged. -/
theorem abandoned_stream_no_ai_commit :
    ∀ (st : ModelStream) (sid : String) (u : BaseMessage) (mem : Memory)
      (pulls : Nat),
      pulls ≤ st.chunks.length →
      getMessages (monitorStreamAbandoned st sid u mem pulls) sid
        = getMessages mem sid ++ (if pulls = 0 then [] else [u]) ∧
      (∀ s, s ≠ sid →
        getMessages (monitorStreamAbandoned st sid u mem pulls) s
          = getMessages mem s) ∧
      (u.role ≠ Role.ai →
        (getMessages (monitorStreamAbandoned st sid u mem pulls) sid).countP
            (fun m => m.role == Role.ai)
          = (getMessages mem sid).countP (fun m => m.role == Role.ai)) := by
  intro st sid u mem pulls _hpulls
  by_cases h0 : pulls = 0
  · refine ⟨?_, ?_, ?_⟩
    · simp [monitorStreamAbandoned, h0]
    · intro s _
      simp [monitorStreamAbandoned, h0]
    · intro _
      simp [monitorStreamAbandoned, h0]
  · have hself :
        getMessages (monitorStreamAbandoned st sid u mem pulls) sid
          = getMessages mem sid ++ [u] := by
      simp only [monitorStreamAbandoned, if_neg h0]
      exact getMessages_addMessage_self mem sid u
    refine ⟨by rw [hself, if_neg h0], ?_, ?_⟩
    · intro s hs
      simp only [monitorStreamAbandoned, if_neg h0]
      exact getMessages_addMessage_ne mem sid u s hs
    · intro hrole
      have hu : (u.role == Role.ai) = false := by
        cases hr : u.role <;> simp_all
      rw [hself, List.countP_append]
      simp [List.countP_cons, hu]

/-- Witness for claim C7: one pull on the two-chunk stream leaves exactly the
user turn committed. -/
theorem abandoned_stream_no_ai_commit_witness :
    getMessages (monitorStreamAbandoned twoChunkStream "s" (newHumanMessage "q4")
        Memory.empty 1) "s"
      = getMessages Memory.empty "s"
          ++ (if 1 = 0 then [] else [newHumanMessage "q4"]) :=
  (abandoned_stream_no_ai_commit twoChunkStream "s" (newHumanMessage "q4")
      Memory.empty 1 (by decide)).1

set_option maxRecDepth 8192 in
/-- Claim C8, counterexample to the claim as stated: on a query of 300
characters and a failing backend, the error log entry of `processQuery`
carries the full 300-character query, which differs from the 103-character
truncation (first 100 characters plus `'...'`) the claim requires — the
truncation happens only in the informational log at the start of processing,
not in the failure log. -/
theorem error_log_full_query_cex :
    ((processQuery (fun _ => errStream) Memory.empty "s" longQuery).logs.filter
        (fun l => l.level == "error")).map (fun l => l.query)
      = [some longQuery] ∧
    longQuery.length = 300 ∧
    (jsSubstring longQuery 100 ++ "...").length = 103 ∧
    ¬ longQuery = jsSubstring longQuery 100 ++ "..." := by
  refine ⟨by decide, by decide, by decide, by decide⟩

/-- Claim C8 as amended: for every query-processing failure in `processQuery`,
exactly two log entries are emitted — the informational entry at the start of
processing, whose query field is the query truncated to its first 100
characters plus `'...'`, and the failure entry, whose query field is the full
untruncated query text. -/
theorem error_log_query_spec :
    ∀ (agentStream : List BaseMessage → ModelStream) (mem : Memory)
      (sid query e : String),
      (agentStream (requestMessages mem sid query)).error = some e →
      (processQuery agentStream mem sid query).logs
        = [{ level := "info", text := "Processing legal query with session",
             query := some (jsSubstring query 100 ++ "..."),
             sessionId := some sid },
           { level := "error", text := "クエリ処理中にエラーが発生しました",
             error := some e, query := some query }] := by
  intro agentStream mem sid query e he
  simp only [processQuery, he]

/-- Witness for claim C8's amended theorem on the 300-character query: the
info entry is truncated, the failure entry carries the query in full. -/
theorem error_log_query_spec_witness :
    (processQuery (fun _ => errStream) Memory.empty "s" longQuery).logs
      = [{ level := "info", text := "Processing legal query with session",
           query := some (jsSubstring longQuery 100 ++ "..."),
           sessionId := some "s" },
         { level := "error", text := "クエリ処理中にエラーが発生しました",
           error := some "boom", query := some longQuery }] :=
  error_log_query_spec (fun _ => errStream) Memory.empty "s" longQuery "boom" rfl

/-- Claim C9: if the model stream completes successfully but yields no chunk
whose message content is a string, `processQuery` commits only the user turn —
no assistant turn is appended — and returns the empty string. -/
theorem empty_stream_commits_only_user :
    ∀ (agentStream : List BaseMessage → ModelStream) (mem : Memory)
      (sid query : String),
      (agentStream (requestMessages mem sid query)).error = none →
      (∀ c ∈ (agentStream (requestMessages mem sid query)).chunks,
        chunkHasStringContent c = false) →
      (processQuery agentStream mem sid query).result = Except.ok "" ∧
      getMessages (processQuery agentStream mem sid query).memory sid
        = getMessages mem sid ++ [newHumanMessage query] := by
  intro agentStream mem sid query he hc
  have hcol := collectStream_no_content _ hc
  constructor
  · simp only [processQuery, he, hcol]
  · simp only [processQuery, he, hcol]
    exact getMessages_addMessage_self mem sid (newHumanMessage query)

/-- Witness for claim C9 on a stream with one malformed chunk and one
non-string-content chunk: only the user turn is stored and the empty string is
returned. -/
theorem empty_stream_commits_only_user_witness :
    (processQuery (fun _ => noContentStream) Memory.empty "s" "q5").result
      = Except.ok "" ∧
    getMessages (processQuery (fun _ => noContentStream) Memory.empty "s" "q5").memory "s"
      = getMessages Memory.empty "s" ++ [newHumanMessage "q5"] :=
  empty_stream_commits_only_user (fun _ => noContentStream) Memory.empty "s" "q5"
    rfl (by decide)

/-- Claim C10: trimming never alters the stored history.  Every turn in the
output of `trimMessages` is a turn of its input (the input list and its turns
are values the function only reads), and across a whole `processQuery` or
`monitorStream` run every session's stored sequence is only ever extended —
the history that was read and trimmed for the request is still stored
unchanged, as a prefix of the final store. -/
theorem trim_preserves_store :
    (∀ (msgs : List BaseMessage) (m : BaseMessage),
      m ∈ trimMessages msgs → m ∈ msgs) ∧
    (∀ (agentStream : List BaseMessage → ModelStream) (mem : Memory)
        (sid query s : String), ∃ tail,
      getMessages (processQuery agentStream mem sid query).memory s
        = getMessages mem s ++ tail) ∧
    (∀ (st : ModelStream) (sid : String) (u : BaseMessage) (mem : Memory)
        (s : String), ∃ tail,
      getMessages (monitorStream st sid u mem).memory s
        = getMessages mem s ++ tail) := by
  refine ⟨?_, ?_, ?_⟩
  · intro msgs m hm
    unfold trimMessages trimMessagesWith at hm
    by_cases h : msgs.length ≤ maxContextMessages
    · rwa [if_pos h] at hm
    · rw [if_neg h] at hm
      rcases List.mem_append.mp hm with h1 | h2
      · exact (List.mem_filter.mp h1).1
      · unfold jsSliceLast at h2
        rw [if_neg (by decide : ¬ maxContextMessages = 0)] at h2
        exact List.drop_subset _ msgs h2
  · intro agentStream mem sid query s
    cases he : (agentStream (requestMessages mem sid query)).error with
    | some e =>
      exact ⟨[], by simp only [processQuery, he, List.append_nil]⟩
    | none =>
      cases hm : (collectStream (agentStream (requestMessages mem sid query)).chunks).2 with
      | none =>
        obtain ⟨t, ht⟩ := addMessage_extends mem sid (newHumanMessage query) s
        exact ⟨t, by simp only [processQuery, he, hm]; exact ht⟩
      | some m =>
        obtain ⟨t1, ht1⟩ := addMessage_extends mem sid (newHumanMessage query) s
        obtain ⟨t2, ht2⟩ :=
          addMessage_extends (addMessage mem sid (newHumanMessage query)) sid m s
        exact ⟨t1 ++ t2, by
          simp only [processQuery, he, hm]
          rw [ht2, ht1, List.append_assoc]⟩
  · intro st sid u mem s
    cases he : st.error with
    | some e =>
      obtain ⟨t, ht⟩ := addMessage_extends mem sid u s
      exact ⟨t, by simp only [monitorStream, he]; exact ht⟩
    | none =>
      cases hm : (collectStream st.chunks).2 with
      | none =>
        obtain ⟨t, ht⟩ := addMessage_extends mem sid u s
        exact ⟨t, by simp only [monitorStream, he, hm]; exact ht⟩
      | some m =>
        obtain ⟨t1, ht1⟩ := addMessage_extends mem sid u s
        obtain ⟨t2, ht2⟩ := addMessage_extends (addMessage mem sid u) sid m s
        exact ⟨t1 ++ t2, by
          simp only [monitorStream, he, hm]
          rw [ht2, ht1, List.append_assoc]⟩

/-- Witness for claim C10: a turn of a trimmed concrete history is a turn of
the original, and a concrete `processQuery` run only extends the stored
history. -/
theorem trim_preserves_store_witness :
    exSystem ∈ exampleTurns6 ∧
    (∃ tail,
      getMessages (processQuery (fun _ => twoChunkStream) Memory.empty "t" "q3").memory "t"
        = getMessages Memory.empty "t" ++ tail) :=
  ⟨trim_preserves_store.1 exampleTurns6 exSystem (by decide),
   trim_preserves_store.2.1 (fun _ => twoChunkStream) Memory.empty "t" "q3" "t"⟩

end MyLawer
